import Mathlib

/-!
Verification development for the cross-cluster history resend core
(`common/rpc/interceptor/sdk_version.go`: the `SDKVersionInterceptor`
telemetry set and the `NDCHistoryResenderImpl` resend pipeline).

Shallow embedding conventions:
* Go errors are modelled by `Err := String`; a Go `(T, error)` return is
  `Except Err T` (or `Option Err` when only the error is returned).
* Opaque byte slices (data blobs, continuation tokens) are `List Nat`;
  `nil`/empty token is `[]`.
* External collaborators (namespace cache, admin client, replication
  delivery function) are fields of the resender record, as in the source,
  modelled as pure functions.
* Structured logging is modelled by an explicit list of `LogEntry` values
  accumulated alongside each result; timeouts and contexts are not
  observable in this embedding and are dropped.
-/

abbrev Err := String

/-- One structured error-log call: the message and the error it was tagged
with. Execution-identity tags are determined by the enclosing call's
arguments and are not repeated here. -/
structure LogEntry where
  msg : String
  err : Err
deriving DecidableEq

/-! ## SDK version interceptor (`sdk_version.go`, package `interceptor`) -/

/-- Go struct `sdkNameVersion`. -/
structure sdkNameVersion where
  name : String
  version : String
deriving DecidableEq

/-- `check.SDKInfo`, the exported name/version record. -/
structure SDKInfo where
  name : String
  version : String
deriving DecidableEq

/-- Go struct `SDKVersionInterceptor`. The Go `map[sdkNameVersion]struct{}`
is modelled as a duplicate-free list of keys; the mutex only guards
concurrent access and has no sequential content. -/
structure SDKVersionInterceptor where
  sdkInfoSet : List sdkNameVersion
  maxSetSize : Nat
deriving DecidableEq

/-- Go constant `defaultMaxSetSize`. -/
def defaultMaxSetSize : Nat := 100

/-- Go `NewSDKVersionInterceptor`: empty set, default max size. -/
def NewSDKVersionInterceptor : SDKVersionInterceptor :=
  { sdkInfoSet := [], maxSetSize := defaultMaxSetSize }

/-- Go method `RecordSDKInfo`: insert the pair unless the set is at
capacity or the pair is already present. -/
def RecordSDKInfo (vi : SDKVersionInterceptor) (name version : String) :
    SDKVersionInterceptor :=
  if ¬(vi.sdkInfoSet.length ≥ vi.maxSetSize) ∧
      ¬(sdkNameVersion.mk name version ∈ vi.sdkInfoSet) then
    { vi with sdkInfoSet := sdkNameVersion.mk name version :: vi.sdkInfoSet }
  else
    vi

/-- Go method `GetAndResetSDKInfo`: return one `SDKInfo` per stored key and
replace the set with a fresh empty one. -/
def GetAndResetSDKInfo (vi : SDKVersionInterceptor) :
    List SDKInfo × SDKVersionInterceptor :=
  (vi.sdkInfoSet.map (fun k => { name := k.name, version := k.version }),
   { vi with sdkInfoSet := [] })

/-- The request context, as far as the interceptor observes it. -/
structure GrpcContext where
  clientName : String
  clientVersion : String
deriving DecidableEq

/-- Modelled from the spec: `headers.GetClientNameAndVersion`
(`common/headers`, not in src/) extracts the client SDK name and version
from the request context's headers. -/
def GetClientNameAndVersion (ctx : GrpcContext) : String × String :=
  (ctx.clientName, ctx.clientVersion)

/-- Go method `Intercept`: record the client name/version pair when both
are non-empty, then invoke the wrapped handler and return its result.
The handler's Go `(interface{}, error)` return is `Resp × Option Err`. -/
def Intercept {Req Resp : Type} (vi : SDKVersionInterceptor)
    (ctx : GrpcContext) (req : Req)
    (handler : GrpcContext → Req → Resp × Option Err) :
    SDKVersionInterceptor × (Resp × Option Err) :=
  let nv := GetClientNameAndVersion ctx
  let vi' :=
    if nv.1 ≠ "" ∧ nv.2 ≠ "" then RecordSDKInfo vi nv.1 nv.2 else vi
  (vi', handler ctx req)

/-- Replay a sequence of `RecordSDKInfo` calls against a starting state. -/
def recordAll (vi : SDKVersionInterceptor) (calls : List (String × String)) :
    SDKVersionInterceptor :=
  calls.foldl (fun s c => RecordSDKInfo s c.1 c.2) vi

lemma RecordSDKInfo_maxSetSize (vi : SDKVersionInterceptor)
    (name version : String) :
    (RecordSDKInfo vi name version).maxSetSize = vi.maxSetSize := by
  unfold RecordSDKInfo
  split <;> rfl

lemma RecordSDKInfo_preserves (vi : SDKVersionInterceptor)
    (name version : String)
    (hlen : vi.sdkInfoSet.length ≤ vi.maxSetSize)
    (hnd : vi.sdkInfoSet.Nodup) :
    (RecordSDKInfo vi name version).sdkInfoSet.length ≤
        (RecordSDKInfo vi name version).maxSetSize ∧
      (RecordSDKInfo vi name version).sdkInfoSet.Nodup := by
  unfold RecordSDKInfo
  split
  · rename_i h
    refine ⟨?_, ?_⟩
    · simpa using Nat.lt_of_not_ge h.1
    · exact List.nodup_cons.mpr ⟨h.2, hnd⟩
  · exact ⟨hlen, hnd⟩

lemma recordAll_invariant (calls : List (String × String)) :
    ∀ (vi : SDKVersionInterceptor),
      vi.sdkInfoSet.length ≤ vi.maxSetSize → vi.sdkInfoSet.Nodup →
      (recordAll vi calls).maxSetSize = vi.maxSetSize ∧
        (recordAll vi calls).sdkInfoSet.length ≤ vi.maxSetSize ∧
        (recordAll vi calls).sdkInfoSet.Nodup := by
  induction calls with
  | nil => exact fun vi hlen hnd => ⟨rfl, hlen, hnd⟩
  | cons c rest ih =>
    intro vi hlen hnd
    have hstep := RecordSDKInfo_preserves vi c.1 c.2 hlen hnd
    have hmax := RecordSDKInfo_maxSetSize vi c.1 c.2
    have := ih (RecordSDKInfo vi c.1 c.2) hstep.1 hstep.2
    refine ⟨?_, ?_, ?_⟩
    · simpa [recordAll, hmax] using this.1
    · simpa [recordAll, hmax] using this.2.1
    · simpa [recordAll] using this.2.2

/-- Claim C8: starting from `NewSDKVersionInterceptor`, any sequence of
`RecordSDKInfo` calls keeps the stored set duplicate-free with at most
`defaultMaxSetSize` (100) entries, and on any state whose set is at or
above its `maxSetSize`, `RecordSDKInfo` is the identity. -/
theorem recordSDKInfo_bounded (calls : List (String × String)) :
    (recordAll NewSDKVersionInterceptor calls).sdkInfoSet.Nodup ∧
      (recordAll NewSDKVersionInterceptor calls).sdkInfoSet.length ≤
        defaultMaxSetSize ∧
      (∀ (vi : SDKVersionInterceptor) (name version : String),
        vi.sdkInfoSet.length ≥ vi.maxSetSize →
        RecordSDKInfo vi name version = vi) := by
  have h := recordAll_invariant calls NewSDKVersionInterceptor
    (by simp [NewSDKVersionInterceptor]) (by simp [NewSDKVersionInterceptor])
  refine ⟨h.2.2, h.2.1, ?_⟩
  intro vi name version hge
  unfold RecordSDKInfo
  simp [hge]

/-- Witness for C8: a state already at capacity is left unchanged. -/
theorem recordSDKInfo_bounded_witness :
    RecordSDKInfo ⟨[⟨"go", "1"⟩], 1⟩ "java" "2" = ⟨[⟨"go", "1"⟩], 1⟩ :=
  (recordSDKInfo_bounded []).2.2 ⟨[⟨"go", "1"⟩], 1⟩ "java" "2" (by decide)

/-- Claim C9: `GetAndResetSDKInfo` returns a duplicate-free list holding
exactly one `SDKInfo` per recorded (name, version) pair, leaves the
internal set empty, and an immediately following call returns `[]`. -/
theorem getAndResetSDKInfo_spec (vi : SDKVersionInterceptor)
    (hnd : vi.sdkInfoSet.Nodup) :
    (GetAndResetSDKInfo vi).1.Nodup ∧
      (∀ name version : String,
        SDKInfo.mk name version ∈ (GetAndResetSDKInfo vi).1 ↔
          sdkNameVersion.mk name version ∈ vi.sdkInfoSet) ∧
      (GetAndResetSDKInfo vi).2.sdkInfoSet = [] ∧
      (GetAndResetSDKInfo (GetAndResetSDKInfo vi).2).1 = [] := by
  refine ⟨?_, ?_, rfl, rfl⟩
  · refine List.Nodup.map ?_ hnd
    intro a b hab
    cases a; cases b
    simpa [SDKInfo.mk.injEq, sdkNameVersion.mk.injEq] using hab
  · intro name version
    constructor
    · intro hmem
      rcases List.mem_map.mp hmem with ⟨k, hk, hEq⟩
      cases k with
      | mk kn kv =>
        have hkk : kn = name ∧ kv = version := by
          simpa [SDKInfo.mk.injEq] using hEq
        rcases hkk with ⟨h1, h2⟩
        subst h1
        subst h2
        exact hk
    · intro hmem
      exact List.mem_map.mpr ⟨⟨name, version⟩, hmem, rfl⟩

/-- Witness for C9 at a concrete two-element state. -/
theorem getAndResetSDKInfo_spec_witness :
    (GetAndResetSDKInfo ⟨[⟨"go", "1"⟩, ⟨"ts", "2"⟩], 100⟩).1.Nodup ∧
      (∀ name version : String,
        SDKInfo.mk name version ∈
            (GetAndResetSDKInfo ⟨[⟨"go", "1"⟩, ⟨"ts", "2"⟩], 100⟩).1 ↔
          sdkNameVersion.mk name version ∈
            ([⟨"go", "1"⟩, ⟨"ts", "2"⟩] : List sdkNameVersion)) ∧
      (GetAndResetSDKInfo ⟨[⟨"go", "1"⟩, ⟨"ts", "2"⟩], 100⟩).2.sdkInfoSet = [] ∧
      (GetAndResetSDKInfo
          (GetAndResetSDKInfo ⟨[⟨"go", "1"⟩, ⟨"ts", "2"⟩], 100⟩).2).1 = [] :=
  getAndResetSDKInfo_spec ⟨[⟨"go", "1"⟩, ⟨"ts", "2"⟩], 100⟩ (by decide)

/-- Claim C10: `Intercept` always returns the wrapped handler's result
unmodified; it records the client pair (via `RecordSDKInfo`) exactly when
both extracted fields are non-empty, and leaves the state unchanged when
either is empty. -/
theorem intercept_spec {Req Resp : Type} (vi : SDKVersionInterceptor)
    (ctx : GrpcContext) (req : Req)
    (handler : GrpcContext → Req → Resp × Option Err) :
    (Intercept vi ctx req handler).2 = handler ctx req ∧
      (ctx.clientName ≠ "" ∧ ctx.clientVersion ≠ "" →
        (Intercept vi ctx req handler).1 =
          RecordSDKInfo vi ctx.clientName ctx.clientVersion) ∧
      ((ctx.clientName = "" ∨ ctx.clientVersion = "") →
        (Intercept vi ctx req handler).1 = vi) := by
  refine ⟨rfl, ?_, ?_⟩
  · intro h
    simp [Intercept, GetClientNameAndVersion, h.1, h.2]
  · intro h
    rcases h with h | h <;> simp [Intercept, GetClientNameAndVersion, h]

/-- Witness for C10: a non-empty pair is recorded and the handler's
result is passed through. -/
theorem intercept_spec_witness :
    (Intercept NewSDKVersionInterceptor ⟨"go", "1.0"⟩ (5 : Nat)
        (fun _ n => (n + 1, none))).1 =
      RecordSDKInfo NewSDKVersionInterceptor "go" "1.0" :=
  (intercept_spec NewSDKVersionInterceptor ⟨"go", "1.0"⟩ (5 : Nat)
      (fun _ n => (n + 1, none))).2.1 ⟨by decide, by decide⟩

/-! ## NDC history resender (package `xdc`, `nDCHistoryResender`) -/

/-- `eventgenpb.VersionHistoryItem`: an (event ID, version) checkpoint. -/
structure VersionHistoryItem where
  eventId : Int
  version : Int
deriving DecidableEq

/-- `eventgenpb.VersionHistory`: ordered version-history items. -/
structure VersionHistory where
  items : List VersionHistoryItem
deriving DecidableEq

/-- `commonpb.DataBlob`: an opaque serialized event batch, as raw bytes. -/
abbrev DataBlob := List Nat

/-- `executionpb.WorkflowExecution`. -/
structure WorkflowExecution where
  workflowId : String
  runId : String
deriving DecidableEq

/-- `historyservice.ReplicateEventsV2Request`, the delivered wire shape. -/
structure ReplicateEventsV2Request where
  namespaceId : String
  workflowExecution : WorkflowExecution
  events : DataBlob
  versionHistoryItems : List VersionHistoryItem
deriving DecidableEq

/-- `adminservice.GetWorkflowExecutionRawHistoryV2Request`. The Go field
`Namespace` is rendered `namespaceName` (`namespace` is reserved). -/
structure GetWorkflowExecutionRawHistoryV2Request where
  namespaceName : String
  execution : WorkflowExecution
  startEventId : Int
  startEventVersion : Int
  endEventId : Int
  endEventVersion : Int
  maximumPageSize : Int
  nextPageToken : List Nat
deriving DecidableEq

/-- `adminservice.GetWorkflowExecutionRawHistoryV2Response`: one page of
raw batches with the page-level version history and continuation token. -/
structure GetWorkflowExecutionRawHistoryV2Response where
  versionHistory : VersionHistory
  historyBatches : List DataBlob
  nextPageToken : List Nat
deriving DecidableEq

/-- Go struct `historyBatch`: one raw batch paired with the version
history of the page it came from. -/
structure historyBatch where
  versionHistory : VersionHistory
  rawEventBatch : DataBlob
deriving DecidableEq

/-- `cache.NamespaceEntry.GetInfo().Name` portion of the namespace cache
entry: only the name is read by this core. -/
structure NamespaceCacheEntry where
  name : String
deriving DecidableEq

/-- `NDCHistoryResenderImpl` with its collaborators as pure functions:
`namespaceCache.GetNamespaceByID`, `adminClient.GetWorkflowExecutionRawHistoryV2`
and the caller-supplied `historyReplicationFn`. The serializer field of the
Go struct is unused by the resend path and omitted; the logger is modelled
by the explicit `LogEntry` traces below; per-call timeout contexts are not
observable sequentially and are dropped. -/
structure NDCHistoryResenderImpl where
  getNamespaceByID : String → Except Err NamespaceCacheEntry
  getWorkflowExecutionRawHistoryV2 :
    GetWorkflowExecutionRawHistoryV2Request →
      Except Err GetWorkflowExecutionRawHistoryV2Response
  historyReplicationFn : ReplicateEventsV2Request → Except Err Unit

/-- Modelled from the spec: the package constant `defaultPageSize`
("a fixed default page size") is declared outside src/; its numeric value
is never inspected by the resend path. -/
def defaultPageSize : Int := 100

/-- The remote request built inside `getHistory`: resolved namespace name,
workflow/run IDs, the four range bounds, page size, and the continuation
token, each placed verbatim. -/
def rawHistoryRequest (namespaceName workflowID runID : String)
    (startEventID startEventVersion endEventID endEventVersion : Int)
    (pageSize : Int) (token : List Nat) :
    GetWorkflowExecutionRawHistoryV2Request :=
  { namespaceName := namespaceName
    execution := { workflowId := workflowID, runId := runID }
    startEventId := startEventID
    startEventVersion := startEventVersion
    endEventId := endEventID
    endEventVersion := endEventVersion
    maximumPageSize := pageSize
    nextPageToken := token }

/-- Go method `getHistory`: resolve the namespace ID to a name, then issue
the remote raw-history call; each failure is logged and returned
unchanged. Result is paired with the log entries the call emitted. -/
def getHistory (n : NDCHistoryResenderImpl)
    (namespaceID workflowID runID : String)
    (startEventID startEventVersion endEventID endEventVersion : Int)
    (token : List Nat) (pageSize : Int) :
    Except Err GetWorkflowExecutionRawHistoryV2Response × List LogEntry :=
  match n.getNamespaceByID namespaceID with
  | .error err => (.error err, [⟨"error getting namespace", err⟩])
  | .ok namespaceEntry =>
    match n.getWorkflowExecutionRawHistoryV2
        (rawHistoryRequest namespaceEntry.name workflowID runID
          startEventID startEventVersion endEventID endEventVersion
          pageSize token) with
    | .error err => (.error err, [⟨"error getting history", err⟩])
    | .ok response => (.ok response, [])

/-- Go method `getPaginationFn` applied to a token: fetch one page via
`getHistory` with `defaultPageSize`, and on success pair every raw batch
of the page with the page's single version history, returning the page's
next token unchanged. -/
def getPaginationFn (n : NDCHistoryResenderImpl)
    (namespaceID workflowID runID : String)
    (startEventID startEventVersion endEventID endEventVersion : Int)
    (paginationToken : List Nat) :
    Except Err (List historyBatch × List Nat) × List LogEntry :=
  match getHistory n namespaceID workflowID runID
      startEventID startEventVersion endEventID endEventVersion
      paginationToken defaultPageSize with
  | (.error err, logs) => (.error err, logs)
  | (.ok response, logs) =>
    (.ok (response.historyBatches.map
        (fun history =>
          { versionHistory := response.versionHistory
            rawEventBatch := history }),
      response.nextPageToken), logs)

/-- Go method `createReplicationRawRequest`: place the IDs, the raw blob
and the version-history items verbatim into the replication request. -/
def createReplicationRawRequest (namespaceID workflowID runID : String)
    (historyBlob : DataBlob)
    (versionHistoryItems : List VersionHistoryItem) :
    ReplicateEventsV2Request :=
  { namespaceId := namespaceID
    workflowExecution := { workflowId := workflowID, runId := runID }
    events := historyBlob
    versionHistoryItems := versionHistoryItems }

/-- Go method `sendReplicationRawRequest`: invoke the caller-supplied
replication function (its per-request timeout context is not observable
here). -/
def sendReplicationRawRequest (n : NDCHistoryResenderImpl)
    (request : ReplicateEventsV2Request) : Except Err Unit :=
  n.historyReplicationFn request

/-- The per-item body of `SendSingleWorkflowHistory`'s loop, applied to
the items of one fetched page: build a replication request for each
batch and dispatch it; on the first dispatch error, log
"failed to replicate events" and stop. Returns the dispatched requests
in order, the log entries, and the first error if any. -/
def sendPageItems (n : NDCHistoryResenderImpl)
    (namespaceID workflowID runID : String) :
    List historyBatch →
      List ReplicateEventsV2Request × List LogEntry × Option Err
  | [] => ([], [], none)
  | batch :: rest =>
    match sendReplicationRawRequest n
        (createReplicationRawRequest namespaceID workflowID runID
          batch.rawEventBatch batch.versionHistory.items) with
    | .error err =>
      ([createReplicationRawRequest namespaceID workflowID runID
          batch.rawEventBatch batch.versionHistory.items],
       [⟨"failed to replicate events", err⟩], some err)
    | .ok _ =>
      let r := sendPageItems n namespaceID workflowID runID rest
      (createReplicationRawRequest namespaceID workflowID runID
          batch.rawEventBatch batch.versionHistory.items :: r.1,
       r.2.1, r.2.2)

/-- The observable trace of one `SendSingleWorkflowHistory` call: tokens
passed to the pagination function (one per fetch, in order), replication
requests dispatched (in order), log entries, and the returned error
(`none` on success). -/
structure ResendTrace where
  fetchTokens : List (List Nat)
  delivered : List ReplicateEventsV2Request
  logs : List LogEntry
  result : Option Err
deriving DecidableEq

/-- Modelled from the spec: the Paginated Fetch Iterator
(`collection.NewPagingIterator` / `collection.PaginationFn`, declared in
`common/collection`, absent from src/) inlined into the loop of
`SendSingleWorkflowHistory`. Per the spec's iterator contract, a first
page is always fetched, a fetch error is propagated to the consumer
(which logs "failed to get history events" and returns it), every item of
a fetched page is consumed in order, and iteration continues exactly
while the last continuation token is non-empty. `fuel` bounds the number
of fetches so the recursion is total; `none` means the bound was hit. -/
def sendHistoryLoop (n : NDCHistoryResenderImpl)
    (namespaceID workflowID runID : String)
    (startEventID startEventVersion endEventID endEventVersion : Int) :
    Nat → List Nat → Option ResendTrace
  | 0, _ => none
  | fuel + 1, paginationToken =>
    match getPaginationFn n namespaceID workflowID runID
        startEventID startEventVersion endEventID endEventVersion
        paginationToken with
    | (.error err, fetchLogs) =>
      some { fetchTokens := [paginationToken]
             delivered := []
             logs := fetchLogs ++ [⟨"failed to get history events", err⟩]
             result := some err }
    | (.ok (pageItems, nextToken), fetchLogs) =>
      match sendPageItems n namespaceID workflowID runID pageItems with
      | (requests, sendLogs, some err) =>
        some { fetchTokens := [paginationToken]
               delivered := requests
               logs := fetchLogs ++ sendLogs
               result := some err }
      | (requests, sendLogs, none) =>
        if nextToken = [] then
          some { fetchTokens := [paginationToken]
                 delivered := requests
                 logs := fetchLogs ++ sendLogs
                 result := none }
        else
          match sendHistoryLoop n namespaceID workflowID runID
              startEventID startEventVersion endEventID endEventVersion
              fuel nextToken with
          | none => none
          | some t =>
            some { fetchTokens := paginationToken :: t.fetchTokens
                   delivered := requests ++ t.delivered
                   logs := fetchLogs ++ sendLogs ++ t.logs
                   result := t.result }

/-- Go method `SendSingleWorkflowHistory`: drive the iterator from the
empty initial token. -/
def SendSingleWorkflowHistory (n : NDCHistoryResenderImpl)
    (namespaceID workflowID runID : String)
    (startEventID startEventVersion endEventID endEventVersion : Int)
    (fuel : Nat) : Option ResendTrace :=
  sendHistoryLoop n namespaceID workflowID runID
    startEventID startEventVersion endEventID endEventVersion fuel []

/-! ## Derived notions used in the statements -/

/-- The replication requests that one fetched page gives rise to: one per
raw batch, each carrying the page's version-history items. -/
def pageRequests (namespaceID workflowID runID : String)
    (response : GetWorkflowExecutionRawHistoryV2Response) :
    List ReplicateEventsV2Request :=
  response.historyBatches.map (fun history =>
    createReplicationRawRequest namespaceID workflowID runID history
      response.versionHistory.items)

/-- The raw-history source serves the given pages, in order, when probed
starting from `tok`: each fetch succeeds and each page is requested with
the previous page's continuation token. -/
def RespondsWith (n : NDCHistoryResenderImpl)
    (namespaceID workflowID runID : String)
    (startEventID startEventVersion endEventID endEventVersion : Int) :
    List Nat → List GetWorkflowExecutionRawHistoryV2Response → Prop
  | _, [] => True
  | tok, response :: rest =>
    getHistory n namespaceID workflowID runID
        startEventID startEventVersion endEventID endEventVersion
        tok defaultPageSize = (.ok response, []) ∧
      RespondsWith n namespaceID workflowID runID
        startEventID startEventVersion endEventID endEventVersion
        response.nextPageToken rest

/-- The page chain terminates: every intermediate page carries a
non-empty continuation token and the last page an empty one. -/
def ChainClosed : List GetWorkflowExecutionRawHistoryV2Response → Prop
  | [] => True
  | [response] => response.nextPageToken = []
  | response :: rest => response.nextPageToken ≠ [] ∧ ChainClosed rest

/-- The continuation token a fetch after the given pages would use. -/
def lastTokenFrom (tok : List Nat) :
    List GetWorkflowExecutionRawHistoryV2Response → List Nat
  | [] => tok
  | response :: rest => lastTokenFrom response.nextPageToken rest

/-- Adjacent fetches are linked: each fetch after the first was issued
with exactly the continuation token returned by the previous fetch. -/
def TokensThreaded (n : NDCHistoryResenderImpl)
    (namespaceID workflowID runID : String)
    (startEventID startEventVersion endEventID endEventVersion : Int) :
    List (List Nat) → Prop
  | [] => True
  | [_] => True
  | a :: b :: rest =>
    Except.map Prod.snd
        (getPaginationFn n namespaceID workflowID runID
          startEventID startEventVersion endEventID endEventVersion a).1 =
      .ok b ∧
      TokensThreaded n namespaceID workflowID runID
        startEventID startEventVersion endEventID endEventVersion (b :: rest)

/-! ## Lemmas about the pagination function and the dispatch loop -/

lemma getPaginationFn_ok (n : NDCHistoryResenderImpl)
    (namespaceID workflowID runID : String)
    (sE sV eE eV : Int) (tok : List Nat)
    (response : GetWorkflowExecutionRawHistoryV2Response)
    (logs : List LogEntry)
    (h : getHistory n namespaceID workflowID runID sE sV eE eV
      tok defaultPageSize = (.ok response, logs)) :
    getPaginationFn n namespaceID workflowID runID sE sV eE eV tok =
      (.ok (response.historyBatches.map
          (fun history =>
            { versionHistory := response.versionHistory
              rawEventBatch := history }),
        response.nextPageToken), logs) := by
  simp [getPaginationFn, h]

lemma getPaginationFn_err (n : NDCHistoryResenderImpl)
    (namespaceID workflowID runID : String)
    (sE sV eE eV : Int) (tok : List Nat) (err : Err)
    (logs : List LogEntry)
    (h : getHistory n namespaceID workflowID runID sE sV eE eV
      tok defaultPageSize = (.error err, logs)) :
    getPaginationFn n namespaceID workflowID runID sE sV eE eV tok =
      (.error err, logs) := by
  simp [getPaginationFn, h]

lemma pageItems_map_requests (namespaceID workflowID runID : String)
    (response : GetWorkflowExecutionRawHistoryV2Response) :
    (response.historyBatches.map
        (fun history =>
          historyBatch.mk response.versionHistory history)).map
      (fun b => createReplicationRawRequest namespaceID workflowID runID
        b.rawEventBatch b.versionHistory.items) =
      pageRequests namespaceID workflowID runID response := by
  simp [pageRequests, List.map_map]

lemma sendPageItems_ok (n : NDCHistoryResenderImpl)
    (namespaceID workflowID runID : String) :
    ∀ (items : List historyBatch),
      (∀ b ∈ items, n.historyReplicationFn
          (createReplicationRawRequest namespaceID workflowID runID
            b.rawEventBatch b.versionHistory.items) = .ok ()) →
      sendPageItems n namespaceID workflowID runID items =
        (items.map (fun b =>
          createReplicationRawRequest namespaceID workflowID runID
            b.rawEventBatch b.versionHistory.items), [], none) := by
  intro items
  induction items with
  | nil => intro _; rfl
  | cons b rest ih =>
    intro h
    have hb := h b (List.mem_cons_self b rest)
    have hrest := ih (fun x hx => h x (List.mem_cons_of_mem b hx))
    simp [sendPageItems, sendReplicationRawRequest, hb, hrest]

lemma sendPageItems_fail (n : NDCHistoryResenderImpl)
    (namespaceID workflowID runID : String) :
    ∀ (pre : List historyBatch) (b : historyBatch)
      (post : List historyBatch) (err : Err),
      (∀ x ∈ pre, n.historyReplicationFn
          (createReplicationRawRequest namespaceID workflowID runID
            x.rawEventBatch x.versionHistory.items) = .ok ()) →
      n.historyReplicationFn
          (createReplicationRawRequest namespaceID workflowID runID
            b.rawEventBatch b.versionHistory.items) = .error err →
      sendPageItems n namespaceID workflowID runID (pre ++ b :: post) =
        (pre.map (fun x =>
            createReplicationRawRequest namespaceID workflowID runID
              x.rawEventBatch x.versionHistory.items) ++
          [createReplicationRawRequest namespaceID workflowID runID
            b.rawEventBatch b.versionHistory.items],
         [⟨"failed to replicate events", err⟩], some err) := by
  intro pre
  induction pre with
  | nil =>
    intro b post err _ hb
    simp [sendPageItems, sendReplicationRawRequest, hb]
  | cons x rest ih =>
    intro b post err hpre hb
    have hx := hpre x (List.mem_cons_self x rest)
    have hrest := ih b post err
      (fun y hy => hpre y (List.mem_cons_of_mem x hy)) hb
    simp [sendPageItems, sendReplicationRawRequest, hx, hrest]

lemma sendPageItems_mem (n : NDCHistoryResenderImpl)
    (namespaceID workflowID runID : String) :
    ∀ (items : List historyBatch)
      (req : ReplicateEventsV2Request),
      req ∈ (sendPageItems n namespaceID workflowID runID items).1 →
      ∃ b ∈ items, req = createReplicationRawRequest namespaceID workflowID
        runID b.rawEventBatch b.versionHistory.items := by
  intro items
  induction items with
  | nil => intro req h; simp [sendPageItems] at h
  | cons b rest ih =>
    intro req h
    simp only [sendPageItems] at h
    cases hc : sendReplicationRawRequest n
        (createReplicationRawRequest namespaceID workflowID runID
          b.rawEventBatch b.versionHistory.items) with
    | error err =>
      rw [hc] at h
      simp only [List.mem_singleton] at h
      exact ⟨b, List.mem_cons_self b rest, h⟩
    | ok u =>
      rw [hc] at h
      simp only [List.mem_cons] at h
      rcases h with h | h
      · exact ⟨b, List.mem_cons_self b rest, h⟩
      · rcases ih req h with ⟨b', hb', hEq⟩
        exact ⟨b', List.mem_cons_of_mem b hb', hEq⟩

lemma sendHistoryLoop_step_fetchErr (n : NDCHistoryResenderImpl)
    (namespaceID workflowID runID : String) (sE sV eE eV : Int)
    (fuel : Nat) (tok : List Nat) (err : Err) (elogs : List LogEntry)
    (h : getHistory n namespaceID workflowID runID sE sV eE eV
      tok defaultPageSize = (.error err, elogs)) :
    sendHistoryLoop n namespaceID workflowID runID sE sV eE eV
        (fuel + 1) tok =
      some { fetchTokens := [tok]
             delivered := []
             logs := elogs ++ [⟨"failed to get history events", err⟩]
             result := some err } := by
  simp only [sendHistoryLoop]
  rw [getPaginationFn_err n namespaceID workflowID runID sE sV eE eV
    tok err elogs h]

lemma sendHistoryLoop_step_ok (n : NDCHistoryResenderImpl)
    (namespaceID workflowID runID : String) (sE sV eE eV : Int)
    (fuel : Nat) (tok : List Nat)
    (response : GetWorkflowExecutionRawHistoryV2Response)
    (hr : getHistory n namespaceID workflowID runID sE sV eE eV
      tok defaultPageSize = (.ok response, []))
    (hitems : ∀ req ∈ pageRequests namespaceID workflowID runID response,
      n.historyReplicationFn req = .ok ()) :
    sendHistoryLoop n namespaceID workflowID runID sE sV eE eV
        (fuel + 1) tok =
      if response.nextPageToken = [] then
        some { fetchTokens := [tok]
               delivered := pageRequests namespaceID workflowID runID response
               logs := []
               result := none }
      else
        match sendHistoryLoop n namespaceID workflowID runID sE sV eE eV
            fuel response.nextPageToken with
        | none => none
        | some t =>
          some { fetchTokens := tok :: t.fetchTokens
                 delivered :=
                   pageRequests namespaceID workflowID runID response ++
                     t.delivered
                 logs := t.logs
                 result := t.result } := by
  have hitems' : ∀ b ∈ response.historyBatches.map
      (fun history => historyBatch.mk response.versionHistory history),
      n.historyReplicationFn
        (createReplicationRawRequest namespaceID workflowID runID
          b.rawEventBatch b.versionHistory.items) = .ok () := by
    intro b hb
    apply hitems
    rw [← pageItems_map_requests]
    exact List.mem_map_of_mem _ hb
  simp only [sendHistoryLoop]
  rw [getPaginationFn_ok n namespaceID workflowID runID sE sV eE eV
    tok response [] hr]
  dsimp only
  rw [sendPageItems_ok n namespaceID workflowID runID _ hitems',
    pageItems_map_requests]
  simp only [List.nil_append]

lemma sendHistoryLoop_step_sinkErr (n : NDCHistoryResenderImpl)
    (namespaceID workflowID runID : String) (sE sV eE eV : Int)
    (fuel : Nat) (tok : List Nat)
    (response : GetWorkflowExecutionRawHistoryV2Response)
    (pre : List DataBlob) (blob : DataBlob) (post : List DataBlob)
    (err : Err)
    (hr : getHistory n namespaceID workflowID runID sE sV eE eV
      tok defaultPageSize = (.ok response, []))
    (hsplit : response.historyBatches = pre ++ blob :: post)
    (hpre : ∀ x ∈ pre, n.historyReplicationFn
      (createReplicationRawRequest namespaceID workflowID runID x
        response.versionHistory.items) = .ok ())
    (hblob : n.historyReplicationFn
      (createReplicationRawRequest namespaceID workflowID runID blob
        response.versionHistory.items) = .error err) :
    sendHistoryLoop n namespaceID workflowID runID sE sV eE eV
        (fuel + 1) tok =
      some { fetchTokens := [tok]
             delivered :=
               pre.map (fun x =>
                 createReplicationRawRequest namespaceID workflowID runID x
                   response.versionHistory.items) ++
                 [createReplicationRawRequest namespaceID workflowID runID
                   blob response.versionHistory.items]
             logs := [⟨"failed to replicate events", err⟩]
             result := some err } := by
  simp only [sendHistoryLoop]
  rw [getPaginationFn_ok n namespaceID workflowID runID sE sV eE eV
    tok response [] hr]
  have hmapsplit : response.historyBatches.map
      (fun history => historyBatch.mk response.versionHistory history) =
      pre.map (fun x => historyBatch.mk response.versionHistory x) ++
        historyBatch.mk response.versionHistory blob ::
          post.map (fun x => historyBatch.mk response.versionHistory x) := by
    rw [hsplit]
    simp
  dsimp only
  rw [hmapsplit]
  have hpre' : ∀ x ∈ pre.map
      (fun x => historyBatch.mk response.versionHistory x),
      n.historyReplicationFn
        (createReplicationRawRequest namespaceID workflowID runID
          x.rawEventBatch x.versionHistory.items) = .ok () := by
    intro x hx
    rcases List.mem_map.mp hx with ⟨y, hy, rfl⟩
    exact hpre y hy
  rw [sendPageItems_fail n namespaceID workflowID runID _ _ _ err hpre'
    hblob]
  simp only [List.map_map]
  rfl

lemma sendHistoryLoop_success (n : NDCHistoryResenderImpl)
    (namespaceID workflowID runID : String) (sE sV eE eV : Int) :
    ∀ (resps : List GetWorkflowExecutionRawHistoryV2Response)
      (tok : List Nat) (extra : Nat),
      resps ≠ [] →
      RespondsWith n namespaceID workflowID runID sE sV eE eV tok resps →
      ChainClosed resps →
      (∀ req ∈ (resps.map
          (pageRequests namespaceID workflowID runID)).flatten,
        n.historyReplicationFn req = .ok ()) →
      sendHistoryLoop n namespaceID workflowID runID sE sV eE eV
          (resps.length + extra) tok =
        some { fetchTokens :=
                 tok :: (resps.map (fun r => r.nextPageToken)).dropLast
               delivered :=
                 (resps.map (pageRequests namespaceID workflowID runID)).flatten
               logs := []
               result := none } := by
  intro resps
  induction resps with
  | nil => intro tok extra hne; exact absurd rfl hne
  | cons r rest ih =>
    intro tok extra _ hresp hclosed hsink
    obtain ⟨hr, hrest⟩ := hresp
    have hsinkr : ∀ req ∈ pageRequests namespaceID workflowID runID r,
        n.historyReplicationFn req = .ok () := by
      intro req hreq
      apply hsink
      simp only [List.map_cons, List.flatten_cons, List.mem_append]
      exact Or.inl hreq
    have hlen : (r :: rest).length + extra = (rest.length + extra) + 1 := by
      simp only [List.length_cons]
      omega
    rw [hlen, sendHistoryLoop_step_ok n namespaceID workflowID runID
      sE sV eE eV (rest.length + extra) tok r hr hsinkr]
    cases rest with
    | nil =>
      have hclose : r.nextPageToken = [] := hclosed
      rw [if_pos hclose]
      simp [List.flatten_cons, List.flatten_nil]
    | cons r2 rest2 =>
      obtain ⟨hnt, hcc⟩ := hclosed
      rw [if_neg hnt]
      have hsinkrest : ∀ req ∈ ((r2 :: rest2).map
          (pageRequests namespaceID workflowID runID)).flatten,
          n.historyReplicationFn req = .ok () := by
        intro req hreq
        apply hsink
        simp only [List.map_cons, List.flatten_cons, List.mem_append]
        right
        simpa [List.map_cons, List.flatten_cons, List.mem_append] using hreq
      rw [ih r.nextPageToken extra (List.cons_ne_nil r2 rest2) hrest hcc
        hsinkrest]
      simp [List.flatten_cons, List.dropLast]

lemma sendHistoryLoop_fetch_fail (n : NDCHistoryResenderImpl)
    (namespaceID workflowID runID : String) (sE sV eE eV : Int) :
    ∀ (prev : List GetWorkflowExecutionRawHistoryV2Response)
      (tok : List Nat) (extra : Nat) (err : Err) (elogs : List LogEntry),
      RespondsWith n namespaceID workflowID runID sE sV eE eV tok prev →
      (∀ r ∈ prev, r.nextPageToken ≠ []) →
      getHistory n namespaceID workflowID runID sE sV eE eV
        (lastTokenFrom tok prev) defaultPageSize = (.error err, elogs) →
      (∀ req ∈ (prev.map
          (pageRequests namespaceID workflowID runID)).flatten,
        n.historyReplicationFn req = .ok ()) →
      sendHistoryLoop n namespaceID workflowID runID sE sV eE eV
          (prev.length + 1 + extra) tok =
        some { fetchTokens := tok :: prev.map (fun r => r.nextPageToken)
               delivered :=
                 (prev.map (pageRequests namespaceID workflowID runID)).flatten
               logs := elogs ++ [⟨"failed to get history events", err⟩]
               result := some err } := by
  intro prev
  induction prev with
  | nil =>
    intro tok extra err elogs _ _ hfail _
    have hlen : ([] : List GetWorkflowExecutionRawHistoryV2Response).length
        + 1 + extra = extra + 1 := by simp only [List.length_nil]; omega
    rw [hlen, sendHistoryLoop_step_fetchErr n namespaceID workflowID runID
      sE sV eE eV extra tok err elogs hfail]
    simp [List.flatten_cons, List.flatten_nil]
  | cons r rest ih =>
    intro tok extra err elogs hresp hcont hfail hsink
    obtain ⟨hr, hrest⟩ := hresp
    have hsinkr : ∀ req ∈ pageRequests namespaceID workflowID runID r,
        n.historyReplicationFn req = .ok () := by
      intro req hreq
      apply hsink
      simp only [List.map_cons, List.flatten_cons, List.mem_append]
      exact Or.inl hreq
    have hsinkrest : ∀ req ∈ (rest.map
        (pageRequests namespaceID workflowID runID)).flatten,
        n.historyReplicationFn req = .ok () := by
      intro req hreq
      apply hsink
      simp only [List.map_cons, List.flatten_cons, List.mem_append]
      exact Or.inr hreq
    have hlen : (r :: rest).length + 1 + extra =
        (rest.length + 1 + extra) + 1 := by
      simp only [List.length_cons]
      omega
    rw [hlen, sendHistoryLoop_step_ok n namespaceID workflowID runID
      sE sV eE eV (rest.length + 1 + extra) tok r hr hsinkr]
    rw [if_neg (hcont r (List.mem_cons_self r rest))]
    rw [ih r.nextPageToken extra err elogs hrest
      (fun x hx => hcont x (List.mem_cons_of_mem r hx)) hfail hsinkrest]
    simp [List.flatten_cons, List.flatten_nil]

lemma sendHistoryLoop_sink_fail (n : NDCHistoryResenderImpl)
    (namespaceID workflowID runID : String) (sE sV eE eV : Int) :
    ∀ (prev : List GetWorkflowExecutionRawHistoryV2Response)
      (tok : List Nat) (extra : Nat) (err : Err)
      (failResp : GetWorkflowExecutionRawHistoryV2Response)
      (pre : List DataBlob) (blob : DataBlob) (post : List DataBlob),
      RespondsWith n namespaceID workflowID runID sE sV eE eV tok prev →
      (∀ r ∈ prev, r.nextPageToken ≠ []) →
      getHistory n namespaceID workflowID runID sE sV eE eV
        (lastTokenFrom tok prev) defaultPageSize = (.ok failResp, []) →
      failResp.historyBatches = pre ++ blob :: post →
      (∀ req ∈ (prev.map
          (pageRequests namespaceID workflowID runID)).flatten,
        n.historyReplicationFn req = .ok ()) →
      (∀ x ∈ pre, n.historyReplicationFn
        (createReplicationRawRequest namespaceID workflowID runID x
          failResp.versionHistory.items) = .ok ()) →
      n.historyReplicationFn
        (createReplicationRawRequest namespaceID workflowID runID blob
          failResp.versionHistory.items) = .error err →
      sendHistoryLoop n namespaceID workflowID runID sE sV eE eV
          (prev.length + 1 + extra) tok =
        some { fetchTokens := tok :: prev.map (fun r => r.nextPageToken)
               delivered :=
                 (prev.map (pageRequests namespaceID workflowID runID)).flatten
                   ++ (pre.map (fun x =>
                        createReplicationRawRequest namespaceID workflowID
                          runID x failResp.versionHistory.items) ++
                      [createReplicationRawRequest namespaceID workflowID
                        runID blob failResp.versionHistory.items])
               logs := [⟨"failed to replicate events", err⟩]
               result := some err } := by
  intro prev
  induction prev with
  | nil =>
    intro tok extra err failResp pre blob post _ _ hfetch hsplit _ hpre hblob
    have hlen : ([] : List GetWorkflowExecutionRawHistoryV2Response).length
        + 1 + extra = extra + 1 := by simp only [List.length_nil]; omega
    rw [hlen, sendHistoryLoop_step_sinkErr n namespaceID workflowID runID
      sE sV eE eV extra tok failResp pre blob post err hfetch hsplit hpre
      hblob]
    simp [List.flatten_cons, List.flatten_nil]
  | cons r rest ih =>
    intro tok extra err failResp pre blob post hresp hcont hfetch hsplit
      hsink hpre hblob
    obtain ⟨hr, hrest⟩ := hresp
    have hsinkr : ∀ req ∈ pageRequests namespaceID workflowID runID r,
        n.historyReplicationFn req = .ok () := by
      intro req hreq
      apply hsink
      simp only [List.map_cons, List.flatten_cons, List.mem_append]
      exact Or.inl hreq
    have hsinkrest : ∀ req ∈ (rest.map
        (pageRequests namespaceID workflowID runID)).flatten,
        n.historyReplicationFn req = .ok () := by
      intro req hreq
      apply hsink
      simp only [List.map_cons, List.flatten_cons, List.mem_append]
      exact Or.inr hreq
    have hlen : (r :: rest).length + 1 + extra =
        (rest.length + 1 + extra) + 1 := by
      simp only [List.length_cons]
      omega
    rw [hlen, sendHistoryLoop_step_ok n namespaceID workflowID runID
      sE sV eE eV (rest.length + 1 + extra) tok r hr hsinkr]
    rw [if_neg (hcont r (List.mem_cons_self r rest))]
    rw [ih r.nextPageToken extra err failResp pre blob post hrest
      (fun x hx => hcont x (List.mem_cons_of_mem r hx)) hfetch hsplit
      hsinkrest hpre hblob]
    simp [List.flatten_cons, List.flatten_nil]

lemma sendHistoryLoop_tokens (n : NDCHistoryResenderImpl)
    (namespaceID workflowID runID : String) (sE sV eE eV : Int) :
    ∀ (fuel : Nat) (tok : List Nat) (t : ResendTrace),
      sendHistoryLoop n namespaceID workflowID runID sE sV eE eV fuel tok =
        some t →
      t.fetchTokens.head? = some tok ∧
        TokensThreaded n namespaceID workflowID runID sE sV eE eV
          t.fetchTokens := by
  intro fuel
  induction fuel with
  | zero => intro tok t h; simp [sendHistoryLoop] at h
  | succ fuel ih =>
    intro tok t h
    simp only [sendHistoryLoop] at h
    rcases hgp : getPaginationFn n namespaceID workflowID runID sE sV eE eV
        tok with ⟨res, fetchLogs⟩
    rw [hgp] at h
    cases res with
    | error err =>
      dsimp only at h
      injection h with h2
      subst h2
      exact ⟨rfl, trivial⟩
    | ok pr =>
      obtain ⟨pageItems, nextToken⟩ := pr
      dsimp only at h
      rcases hsp : sendPageItems n namespaceID workflowID runID pageItems
        with ⟨requests, sendLogs, optErr⟩
      rw [hsp] at h
      cases optErr with
      | some err =>
        dsimp only at h
        injection h with h2
        subst h2
        exact ⟨rfl, trivial⟩
      | none =>
        dsimp only at h
        by_cases hnt : nextToken = []
        · rw [if_pos hnt] at h
          injection h with h2
          subst h2
          exact ⟨rfl, trivial⟩
        · rw [if_neg hnt] at h
          rcases hrec : sendHistoryLoop n namespaceID workflowID runID
              sE sV eE eV fuel nextToken with _ | t'
          · rw [hrec] at h
            exact absurd h (by simp)
          · rw [hrec] at h
            dsimp only at h
            injection h with h2
            subst h2
            obtain ⟨hhead, hthr⟩ := ih nextToken t' hrec
            cases hft : t'.fetchTokens with
            | nil => rw [hft] at hhead; simp at hhead
            | cons t0 more =>
              rw [hft] at hhead
              simp only [List.head?] at hhead
              injection hhead with hh
              rw [hft] at hthr
              refine ⟨rfl, ⟨?_, hthr⟩⟩
              rw [hgp, hh]
              rfl

lemma sendHistoryLoop_delivered_ids (n : NDCHistoryResenderImpl)
    (namespaceID workflowID runID : String) (sE sV eE eV : Int) :
    ∀ (fuel : Nat) (tok : List Nat) (t : ResendTrace),
      sendHistoryLoop n namespaceID workflowID runID sE sV eE eV fuel tok =
        some t →
      ∀ req ∈ t.delivered, ∃ b : historyBatch,
        req = createReplicationRawRequest namespaceID workflowID runID
          b.rawEventBatch b.versionHistory.items := by
  intro fuel
  induction fuel with
  | zero => intro tok t h; simp [sendHistoryLoop] at h
  | succ fuel ih =>
    intro tok t h
    simp only [sendHistoryLoop] at h
    rcases hgp : getPaginationFn n namespaceID workflowID runID sE sV eE eV
        tok with ⟨res, fetchLogs⟩
    rw [hgp] at h
    cases res with
    | error err =>
      dsimp only at h
      injection h with h2
      subst h2
      intro req hreq
      simp at hreq
    | ok pr =>
      obtain ⟨pageItems, nextToken⟩ := pr
      dsimp only at h
      rcases hsp : sendPageItems n namespaceID workflowID runID pageItems
        with ⟨requests, sendLogs, optErr⟩
      rw [hsp] at h
      have hfromPage : ∀ req ∈ requests, ∃ b : historyBatch,
          req = createReplicationRawRequest namespaceID workflowID runID
            b.rawEventBatch b.versionHistory.items := by
        intro req hreq
        have hmem : req ∈ (sendPageItems n namespaceID workflowID runID
            pageItems).1 := by rw [hsp]; exact hreq
        rcases sendPageItems_mem n namespaceID workflowID runID pageItems
          req hmem with ⟨b, _, hEq⟩
        exact ⟨b, hEq⟩
      cases optErr with
      | some err =>
        dsimp only at h
        injection h with h2
        subst h2
        exact hfromPage
      | none =>
        dsimp only at h
        by_cases hnt : nextToken = []
        · rw [if_pos hnt] at h
          injection h with h2
          subst h2
          exact hfromPage
        · rw [if_neg hnt] at h
          rcases hrec : sendHistoryLoop n namespaceID workflowID runID
              sE sV eE eV fuel nextToken with _ | t'
          · rw [hrec] at h
            exact absurd h (by simp)
          · rw [hrec] at h
            dsimp only at h
            injection h with h2
            subst h2
            intro req hreq
            simp only [List.mem_append] at hreq
            rcases hreq with hreq | hreq
            · exact hfromPage req hreq
            · exact ih nextToken t' hrec req hreq

/-! ## Claim theorems for the resend pipeline -/

/-- Claim C1 (amended): for every event range the raw-history source
satisfies in k pages (every fetch succeeding, token chain terminating)
with every dispatch succeeding, `SendSingleWorkflowHistory` performs
exactly k fetches and invokes the replication-delivery function once per
raw batch — the concatenation, in page order, of each page's requests —
and returns no error. The invocation count equals k exactly when every
page carries a single batch; it is the total batch count in general. -/
theorem sendSingleWorkflowHistory_success (n : NDCHistoryResenderImpl)
    (namespaceID workflowID runID : String) (sE sV eE eV : Int)
    (resps : List GetWorkflowExecutionRawHistoryV2Response) (fuel : Nat)
    (hne : resps ≠ [])
    (hfuel : resps.length ≤ fuel)
    (hresp : RespondsWith n namespaceID workflowID runID sE sV eE eV []
      resps)
    (hclosed : ChainClosed resps)
    (hsink : ∀ req ∈ (resps.map
        (pageRequests namespaceID workflowID runID)).flatten,
      n.historyReplicationFn req = .ok ()) :
    SendSingleWorkflowHistory n namespaceID workflowID runID sE sV eE eV
        fuel =
      some { fetchTokens :=
               [] :: (resps.map (fun r => r.nextPageToken)).dropLast
             delivered :=
               (resps.map (pageRequests namespaceID workflowID runID)).flatten
             logs := []
             result := none } := by
  obtain ⟨extra, rfl⟩ := Nat.exists_eq_add_of_le hfuel
  exact sendHistoryLoop_success n namespaceID workflowID runID sE sV eE eV
    resps [] extra hne hresp hclosed hsink

/-- Two-page source for the C1 witness. -/
def c1Page1 : GetWorkflowExecutionRawHistoryV2Response :=
  { versionHistory := ⟨[⟨1, 0⟩]⟩
    historyBatches := [[1]]
    nextPageToken := [1] }

def c1Page2 : GetWorkflowExecutionRawHistoryV2Response :=
  { versionHistory := ⟨[⟨50, 0⟩, ⟨100, 0⟩]⟩
    historyBatches := [[2]]
    nextPageToken := [] }

def c1Resender : NDCHistoryResenderImpl :=
  { getNamespaceByID := fun _ => .ok ⟨"ns"⟩
    getWorkflowExecutionRawHistoryV2 := fun req =>
      if req.nextPageToken = [] then .ok c1Page1 else .ok c1Page2
    historyReplicationFn := fun _ => .ok () }

/-- Witness for C1 on a concrete two-page source. -/
theorem sendSingleWorkflowHistory_success_witness :
    SendSingleWorkflowHistory c1Resender "nsid" "wf" "run" 1 0 100 0 2 =
      some { fetchTokens :=
               [] :: (([c1Page1, c1Page2].map
                 (fun r => r.nextPageToken)).dropLast)
             delivered :=
               ([c1Page1, c1Page2].map
                 (pageRequests "nsid" "wf" "run")).flatten
             logs := []
             result := none } :=
  sendSingleWorkflowHistory_success c1Resender "nsid" "wf" "run" 1 0 100 0
    [c1Page1, c1Page2] 2 (by simp) (by decide)
    ⟨rfl, rfl, trivial⟩ ⟨by decide, rfl⟩
    (fun req _ => rfl)

/-- One-page, two-batch source on which C1 as stated fails. -/
def c1CexResender : NDCHistoryResenderImpl :=
  { getNamespaceByID := fun _ => .ok ⟨"ns"⟩
    getWorkflowExecutionRawHistoryV2 := fun _ =>
      .ok { versionHistory := ⟨[⟨1, 0⟩]⟩
            historyBatches := [[1], [2]]
            nextPageToken := [] }
    historyReplicationFn := fun _ => .ok () }

/-- Counterexample to C1 as stated: a source that satisfies the range in
k = 1 page whose page holds two batches; the run succeeds after exactly
one fetch, but the delivery function is invoked twice, not k = 1 times. -/
theorem sendSingleWorkflowHistory_success_cex :
    (SendSingleWorkflowHistory c1CexResender "nsid" "wf" "run" 1 0 100 0
        1).map
      (fun t => (t.fetchTokens.length, t.delivered.length, t.result)) =
      some (1, 2, none) ∧ (2 : Nat) ≠ 1 :=
  ⟨rfl, by decide⟩

/-- Claim C2 (amended): if the raw-history source fails on page i
(1-indexed), the replication-delivery function has been invoked once per
batch of the first i−1 pages (exactly i−1 times when each such page
holds a single batch), and `SendSingleWorkflowHistory` returns the
source's error unchanged, the error having also been appended to the log
trace untranslated. -/
theorem sendSingleWorkflowHistory_fetch_fail (n : NDCHistoryResenderImpl)
    (namespaceID workflowID runID : String) (sE sV eE eV : Int)
    (prev : List GetWorkflowExecutionRawHistoryV2Response) (fuel : Nat)
    (err : Err) (elogs : List LogEntry)
    (hfuel : prev.length + 1 ≤ fuel)
    (hresp : RespondsWith n namespaceID workflowID runID sE sV eE eV []
      prev)
    (hcont : ∀ r ∈ prev, r.nextPageToken ≠ [])
    (hfail : getHistory n namespaceID workflowID runID sE sV eE eV
      (lastTokenFrom [] prev) defaultPageSize = (.error err, elogs))
    (hsink : ∀ req ∈ (prev.map
        (pageRequests namespaceID workflowID runID)).flatten,
      n.historyReplicationFn req = .ok ()) :
    SendSingleWorkflowHistory n namespaceID workflowID runID sE sV eE eV
        fuel =
      some { fetchTokens := [] :: prev.map (fun r => r.nextPageToken)
             delivered :=
               (prev.map (pageRequests namespaceID workflowID runID)).flatten
             logs := elogs ++ [⟨"failed to get history events", err⟩]
             result := some err } := by
  obtain ⟨extra, rfl⟩ := Nat.exists_eq_add_of_le hfuel
  exact sendHistoryLoop_fetch_fail n namespaceID workflowID runID
    sE sV eE eV prev [] extra err elogs hresp hcont hfail hsink

/-- First page of the C2 source: two batches, continuation token `[7]`. -/
def c2Page1 : GetWorkflowExecutionRawHistoryV2Response :=
  { versionHistory := ⟨[⟨1, 0⟩]⟩
    historyBatches := [[1], [2]]
    nextPageToken := [7] }

/-- Source that serves `c2Page1` and then fails on the second fetch. -/
def c2Resender : NDCHistoryResenderImpl :=
  { getNamespaceByID := fun _ => .ok ⟨"ns"⟩
    getWorkflowExecutionRawHistoryV2 := fun req =>
      if req.nextPageToken = [] then .ok c2Page1
      else .error "source failed"
    historyReplicationFn := fun _ => .ok () }

/-- Witness for C2: the source fails on page 2; the error comes back
unchanged after the first page's two batches were dispatched. -/
theorem sendSingleWorkflowHistory_fetch_fail_witness :
    SendSingleWorkflowHistory c2Resender "nsid" "wf" "run" 1 0 100 0 2 =
      some { fetchTokens := [] :: [c2Page1].map (fun r => r.nextPageToken)
             delivered :=
               ([c2Page1].map (pageRequests "nsid" "wf" "run")).flatten
             logs := [⟨"error getting history", "source failed"⟩] ++
               [⟨"failed to get history events", "source failed"⟩]
             result := some "source failed" } :=
  sendSingleWorkflowHistory_fetch_fail c2Resender "nsid" "wf" "run"
    1 0 100 0 [c2Page1] 2 "source failed"
    [⟨"error getting history", "source failed"⟩]
    (by decide) ⟨rfl, trivial⟩
    (by intro r hr; rw [List.mem_singleton] at hr; subst hr; decide)
    rfl (fun req _ => rfl)

/-- Counterexample to C2 as stated: the source fails on page i = 2, but
the delivery function has been invoked twice (page 1 held two batches),
not i − 1 = 1 times. -/
theorem sendSingleWorkflowHistory_fetch_fail_cex :
    (SendSingleWorkflowHistory c2Resender "nsid" "wf" "run" 1 0 100 0
        2).map
      (fun t => (t.fetchTokens.length, t.delivered.length, t.result)) =
      some (2, 2, some "source failed") ∧ (2 : Nat) ≠ 2 - 1 :=
  ⟨rfl, by decide⟩

/-- Claim C3: the pagination function pairs every batch it produces from
one page with that page's single version-history object (it returns
exactly the page's batches, each tagged with the page's version history,
plus the page's token), and every request the dispatch loop emits is
built from some batch of its page and so carries that batch's — hence
the page's — version-history items. -/
theorem pageVersionHistory_pairing (n : NDCHistoryResenderImpl)
    (namespaceID workflowID runID : String) (sE sV eE eV : Int) :
    (∀ (tok : List Nat)
        (response : GetWorkflowExecutionRawHistoryV2Response)
        (plogs : List LogEntry),
      getHistory n namespaceID workflowID runID sE sV eE eV tok
          defaultPageSize = (.ok response, plogs) →
      getPaginationFn n namespaceID workflowID runID sE sV eE eV tok =
        (.ok (response.historyBatches.map
            (fun history =>
              { versionHistory := response.versionHistory
                rawEventBatch := history }),
          response.nextPageToken), plogs)) ∧
    (∀ (items : List historyBatch) (req : ReplicateEventsV2Request),
      req ∈ (sendPageItems n namespaceID workflowID runID items).1 →
      ∃ b ∈ items, req = createReplicationRawRequest namespaceID
        workflowID runID b.rawEventBatch b.versionHistory.items) :=
  ⟨fun tok response plogs h =>
    getPaginationFn_ok n namespaceID workflowID runID sE sV eE eV tok
      response plogs h,
   fun items req hreq =>
    sendPageItems_mem n namespaceID workflowID runID items req hreq⟩

/-- One-page source for the C3 witness: two batches sharing the page's
version history. -/
def c3Page : GetWorkflowExecutionRawHistoryV2Response :=
  { versionHistory := ⟨[⟨3, 1⟩]⟩
    historyBatches := [[1], [2]]
    nextPageToken := [] }

def c3Resender : NDCHistoryResenderImpl :=
  { getNamespaceByID := fun _ => .ok ⟨"ns"⟩
    getWorkflowExecutionRawHistoryV2 := fun _ => .ok c3Page
    historyReplicationFn := fun _ => .ok () }

/-- Witness for C3: on a concrete page both batches come back paired with
the page's version history. -/
theorem pageVersionHistory_pairing_witness :
    getPaginationFn c3Resender "nsid" "wf" "run" 1 0 100 0 [] =
      (.ok (c3Page.historyBatches.map
          (fun history =>
            { versionHistory := c3Page.versionHistory
              rawEventBatch := history }),
        c3Page.nextPageToken), []) :=
  (pageVersionHistory_pairing c3Resender "nsid" "wf" "run" 1 0 100 0).1
    [] c3Page [] rfl

/-- Claim C4 (amended): if the replication-delivery function first fails
on the j-th dispatched request — in page i, after every request of pages
1..i−1 and the preceding batches of page i succeeded — then it has been
invoked exactly j times (the successful dispatches plus the failing
one), exactly i fetches have occurred with none after the failure, and
`SendSingleWorkflowHistory` returns that error. The invocation count
equals i exactly when each page up to the failure holds one batch. -/
theorem sendSingleWorkflowHistory_sink_fail (n : NDCHistoryResenderImpl)
    (namespaceID workflowID runID : String) (sE sV eE eV : Int)
    (prev : List GetWorkflowExecutionRawHistoryV2Response) (fuel : Nat)
    (err : Err) (failResp : GetWorkflowExecutionRawHistoryV2Response)
    (pre : List DataBlob) (blob : DataBlob) (post : List DataBlob)
    (hfuel : prev.length + 1 ≤ fuel)
    (hresp : RespondsWith n namespaceID workflowID runID sE sV eE eV []
      prev)
    (hcont : ∀ r ∈ prev, r.nextPageToken ≠ [])
    (hfetch : getHistory n namespaceID workflowID runID sE sV eE eV
      (lastTokenFrom [] prev) defaultPageSize = (.ok failResp, []))
    (hsplit : failResp.historyBatches = pre ++ blob :: post)
    (hsink : ∀ req ∈ (prev.map
        (pageRequests namespaceID workflowID runID)).flatten,
      n.historyReplicationFn req = .ok ())
    (hpre : ∀ x ∈ pre, n.historyReplicationFn
      (createReplicationRawRequest namespaceID workflowID runID x
        failResp.versionHistory.items) = .ok ())
    (hblob : n.historyReplicationFn
      (createReplicationRawRequest namespaceID workflowID runID blob
        failResp.versionHistory.items) = .error err) :
    SendSingleWorkflowHistory n namespaceID workflowID runID sE sV eE eV
        fuel =
      some { fetchTokens := [] :: prev.map (fun r => r.nextPageToken)
             delivered :=
               (prev.map (pageRequests namespaceID workflowID runID)).flatten
                 ++ (pre.map (fun x =>
                      createReplicationRawRequest namespaceID workflowID
                        runID x failResp.versionHistory.items) ++
                    [createReplicationRawRequest namespaceID workflowID
                      runID blob failResp.versionHistory.items])
             logs := [⟨"failed to replicate events", err⟩]
             result := some err } := by
  obtain ⟨extra, rfl⟩ := Nat.exists_eq_add_of_le hfuel
  exact sendHistoryLoop_sink_fail n namespaceID workflowID runID
    sE sV eE eV prev [] extra err failResp pre blob post hresp hcont
    hfetch hsplit hsink hpre hblob

/-- One-page, two-batch source whose sink rejects the second batch. -/
def c4Page : GetWorkflowExecutionRawHistoryV2Response :=
  { versionHistory := ⟨[⟨1, 0⟩]⟩
    historyBatches := [[1], [2]]
    nextPageToken := [] }

def c4Resender : NDCHistoryResenderImpl :=
  { getNamespaceByID := fun _ => .ok ⟨"ns"⟩
    getWorkflowExecutionRawHistoryV2 := fun _ => .ok c4Page
    historyReplicationFn := fun req =>
      if req.events = [2] then .error "sink failed" else .ok () }

/-- Witness for C4: the sink fails on the second batch of page 1; the
run stops with that error after two dispatches and one fetch. -/
theorem sendSingleWorkflowHistory_sink_fail_witness :
    SendSingleWorkflowHistory c4Resender "nsid" "wf" "run" 1 0 100 0 1 =
      some { fetchTokens :=
               [] :: ([] : List GetWorkflowExecutionRawHistoryV2Response).map
                 (fun r => r.nextPageToken)
             delivered :=
               (([] : List GetWorkflowExecutionRawHistoryV2Response).map
                   (pageRequests "nsid" "wf" "run")).flatten
                 ++ ([[1]].map (fun x =>
                      createReplicationRawRequest "nsid" "wf" "run" x
                        c4Page.versionHistory.items) ++
                    [createReplicationRawRequest "nsid" "wf" "run" [2]
                      c4Page.versionHistory.items])
             logs := [⟨"failed to replicate events", "sink failed"⟩]
             result := some "sink failed" } :=
  sendSingleWorkflowHistory_sink_fail c4Resender "nsid" "wf" "run"
    1 0 100 0 [] 1 "sink failed" c4Page [[1]] [2] []
    (by decide) trivial
    (fun r hr => absurd hr (List.not_mem_nil r))
    rfl rfl
    (by intro req hreq; simp at hreq)
    (by intro x hx; rw [List.mem_singleton] at hx; subst hx; rfl)
    rfl

/-- Counterexample to C4 as stated: the sink fails on page i = 1, but it
has been invoked twice (the page held two batches and the failure came on
the second), not i = 1 times; no further fetch occurs. -/
theorem sendSingleWorkflowHistory_sink_fail_cex :
    (SendSingleWorkflowHistory c4Resender "nsid" "wf" "run" 1 0 100 0
        1).map
      (fun t => (t.fetchTokens.length, t.delivered.length, t.result)) =
      some (1, 2, some "sink failed") ∧ (2 : Nat) ≠ 1 :=
  ⟨rfl, by decide⟩

/-- Claim C5: `createReplicationRawRequest` is a pure transform that
places the namespace/workflow/run IDs, the raw event blob, and the
version-history items verbatim on the built request; consequently every
request a `SendSingleWorkflowHistory` run delivers carries exactly the
IDs passed to the public entry point. -/
theorem createReplicationRawRequest_spec
    (namespaceID workflowID runID : String) (historyBlob : DataBlob)
    (versionHistoryItems : List VersionHistoryItem) :
    (createReplicationRawRequest namespaceID workflowID runID historyBlob
        versionHistoryItems).namespaceId = namespaceID ∧
      (createReplicationRawRequest namespaceID workflowID runID
        historyBlob versionHistoryItems).workflowExecution.workflowId =
        workflowID ∧
      (createReplicationRawRequest namespaceID workflowID runID
        historyBlob versionHistoryItems).workflowExecution.runId = runID ∧
      (createReplicationRawRequest namespaceID workflowID runID
        historyBlob versionHistoryItems).events = historyBlob ∧
      (createReplicationRawRequest namespaceID workflowID runID
        historyBlob versionHistoryItems).versionHistoryItems =
        versionHistoryItems ∧
      ∀ (n : NDCHistoryResenderImpl) (sE sV eE eV : Int) (fuel : Nat)
        (t : ResendTrace),
        SendSingleWorkflowHistory n namespaceID workflowID runID
            sE sV eE eV fuel = some t →
        ∀ req ∈ t.delivered,
          req.namespaceId = namespaceID ∧
            req.workflowExecution.workflowId = workflowID ∧
            req.workflowExecution.runId = runID := by
  refine ⟨rfl, rfl, rfl, rfl, rfl, ?_⟩
  intro n sE sV eE eV fuel t ht req hreq
  rcases sendHistoryLoop_delivered_ids n namespaceID workflowID runID
    sE sV eE eV fuel [] t ht req hreq with ⟨b, rfl⟩
  exact ⟨rfl, rfl, rfl⟩

/-- One-page, one-batch source for the C5 witness. -/
def c5Page : GetWorkflowExecutionRawHistoryV2Response :=
  { versionHistory := ⟨[⟨1, 0⟩]⟩
    historyBatches := [[9]]
    nextPageToken := [] }

def c5Resender : NDCHistoryResenderImpl :=
  { getNamespaceByID := fun _ => .ok ⟨"ns"⟩
    getWorkflowExecutionRawHistoryV2 := fun _ => .ok c5Page
    historyReplicationFn := fun _ => .ok () }

/-- The single request the C5 witness run delivers. -/
def c5Req : ReplicateEventsV2Request :=
  createReplicationRawRequest "nsid" "wf" "run" [9]
    c5Page.versionHistory.items

/-- The trace of the C5 witness run. -/
def c5Trace : ResendTrace :=
  { fetchTokens := [[]]
    delivered := [c5Req]
    logs := []
    result := none }

/-- Witness for C5: the request delivered by a concrete run carries the
entry point's IDs verbatim. -/
theorem createReplicationRawRequest_spec_witness :
    c5Req.namespaceId = "nsid" ∧
      c5Req.workflowExecution.workflowId = "wf" ∧
      c5Req.workflowExecution.runId = "run" :=
  (createReplicationRawRequest_spec "nsid" "wf" "run" [9]
      c5Page.versionHistory.items).2.2.2.2.2 c5Resender 1 0 100 0 1
    c5Trace rfl c5Req (List.mem_cons_self c5Req [])

/-- Claim C6 (amended): if namespace resolution fails for the supplied
namespace ID, the page fetch fails immediately with the directory's
error returned unchanged (execution-identity context goes onto the log
entries, not onto the error value), the replication-delivery function is
never invoked, `SendSingleWorkflowHistory` returns the resolution error,
and the error is logged twice — once by the fetcher ("error getting
namespace") and once more by the orchestrator ("failed to get history
events") — not exactly once. -/
theorem sendSingleWorkflowHistory_resolution_fail
    (n : NDCHistoryResenderImpl)
    (namespaceID workflowID runID : String) (sE sV eE eV : Int)
    (fuel : Nat) (err : Err)
    (hres : n.getNamespaceByID namespaceID = .error err) :
    SendSingleWorkflowHistory n namespaceID workflowID runID sE sV eE eV
        (fuel + 1) =
      some { fetchTokens := [[]]
             delivered := []
             logs := [⟨"error getting namespace", err⟩,
                      ⟨"failed to get history events", err⟩]
             result := some err } := by
  have hgh : getHistory n namespaceID workflowID runID sE sV eE eV []
      defaultPageSize =
      (.error err, [⟨"error getting namespace", err⟩]) := by
    simp [getHistory, hres]
  have hstep := sendHistoryLoop_step_fetchErr n namespaceID workflowID
    runID sE sV eE eV fuel [] err [⟨"error getting namespace", err⟩] hgh
  simpa [SendSingleWorkflowHistory] using hstep

/-- Source whose namespace directory rejects every namespace ID. -/
def c6Resender : NDCHistoryResenderImpl :=
  { getNamespaceByID := fun _ => .error "namespace not found"
    getWorkflowExecutionRawHistoryV2 := fun _ => .error "unreachable"
    historyReplicationFn := fun _ => .ok () }

/-- Witness for C6 on a concrete failing directory. -/
theorem sendSingleWorkflowHistory_resolution_fail_witness :
    SendSingleWorkflowHistory c6Resender "nsid" "wf" "run" 1 0 100 0
        (0 + 1) =
      some { fetchTokens := [[]]
             delivered := []
             logs := [⟨"error getting namespace", "namespace not found"⟩,
                      ⟨"failed to get history events",
                        "namespace not found"⟩]
             result := some "namespace not found" } :=
  sendSingleWorkflowHistory_resolution_fail c6Resender "nsid" "wf" "run"
    1 0 100 0 0 "namespace not found" rfl

/-- Counterexample to C6 as stated: on resolution failure the sink is
never called and the unchanged resolution error is returned, but it is
logged twice (fetcher and orchestrator), not exactly once. -/
theorem sendSingleWorkflowHistory_resolution_fail_cex :
    (SendSingleWorkflowHistory c6Resender "nsid" "wf" "run" 1 0 100 0
        1).map
      (fun t => (t.delivered.length, t.logs.length, t.result)) =
      some (0, 2, some "namespace not found") ∧ (2 : Nat) ≠ 1 :=
  ⟨rfl, by decide⟩

/-- Claim C7: the continuation token is threaded unchanged — the token
handed to the pagination function is placed verbatim as the remote
request's `nextPageToken`, on success the pagination function returns
the remote response's `nextPageToken` verbatim as the next token, and in
any run every fetch after the first is issued with exactly the token the
previous fetch returned (the first fetch uses the empty initial token). -/
theorem continuationToken_threading (n : NDCHistoryResenderImpl)
    (namespaceID workflowID runID : String) (sE sV eE eV : Int) :
    (∀ (resolvedName : String) (pageSize : Int) (tok : List Nat),
      (rawHistoryRequest resolvedName workflowID runID sE sV eE eV
        pageSize tok).nextPageToken = tok) ∧
    (∀ (tok : List Nat)
        (response : GetWorkflowExecutionRawHistoryV2Response)
        (plogs : List LogEntry),
      getHistory n namespaceID workflowID runID sE sV eE eV tok
          defaultPageSize = (.ok response, plogs) →
      Except.map Prod.snd
          (getPaginationFn n namespaceID workflowID runID sE sV eE eV
            tok).1 = .ok response.nextPageToken) ∧
    (∀ (fuel : Nat) (tok : List Nat) (t : ResendTrace),
      sendHistoryLoop n namespaceID workflowID runID sE sV eE eV fuel
          tok = some t →
      t.fetchTokens.head? = some tok ∧
        TokensThreaded n namespaceID workflowID runID sE sV eE eV
          t.fetchTokens) := by
  refine ⟨fun _ _ _ => rfl, ?_,
    sendHistoryLoop_tokens n namespaceID workflowID runID sE sV eE eV⟩
  intro tok response plogs h
  rw [getPaginationFn_ok n namespaceID workflowID runID sE sV eE eV tok
    response plogs h]
  rfl

/-- Two-page source for the C7 witness; page 1 hands out token `[5]`. -/
def c7Page1 : GetWorkflowExecutionRawHistoryV2Response :=
  { versionHistory := ⟨[⟨1, 0⟩]⟩
    historyBatches := [[1]]
    nextPageToken := [5] }

def c7Page2 : GetWorkflowExecutionRawHistoryV2Response :=
  { versionHistory := ⟨[⟨9, 0⟩]⟩
    historyBatches := [[2]]
    nextPageToken := [] }

def c7Resender : NDCHistoryResenderImpl :=
  { getNamespaceByID := fun _ => .ok ⟨"ns"⟩
    getWorkflowExecutionRawHistoryV2 := fun req =>
      if req.nextPageToken = [] then .ok c7Page1 else .ok c7Page2
    historyReplicationFn := fun _ => .ok () }

/-- The trace of the C7 witness run: two fetches, tokens `[]` then `[5]`. -/
def c7Trace : ResendTrace :=
  { fetchTokens := [[], [5]]
    delivered :=
      [createReplicationRawRequest "nsid" "wf" "run" [1]
        c7Page1.versionHistory.items,
       createReplicationRawRequest "nsid" "wf" "run" [2]
        c7Page2.versionHistory.items]
    logs := []
    result := none }

/-- Witness for C7: in a concrete two-page run the second fetch is issued
with exactly the token the first fetch returned. -/
theorem continuationToken_threading_witness :
    c7Trace.fetchTokens.head? = some [] ∧
      TokensThreaded c7Resender "nsid" "wf" "run" 1 0 100 0
        c7Trace.fetchTokens :=
  (continuationToken_threading c7Resender "nsid" "wf" "run" 1 0 100 0).2.2
    2 [] c7Trace rfl
